import Mathlib

/-!
Verification of the forward-factor-scanner repository.

Shallow embedding conventions:
* Python floats are modelled by exact rationals (`ℚ`) for inputs and by real
  numbers (`ℝ`) where a square root is taken; arithmetic is exact.
* Days-to-expiration values are modelled by `ℤ`.
* Diagnostic message strings are modelled by inductive enumerations, one
  constructor per distinct message in the source.
* Fallible code returns `Option`; a caught exception becomes `Except.error`
  mapped to `none`.
-/

/-! ## Forward Factor calculator (`src/iv_ff_analyzer.py`, `calculate_forward_factor`) -/

/-- The distinct error messages produced by `calculate_forward_factor` in
`src/iv_ff_analyzer.py`, one constructor per message string. -/
inductive FFError where
  | dteOrder                  -- "Near term DTE must be less than next term DTE"
  | nonPositiveIV             -- "Invalid IV values: near=..., next=..."
  | notFinite                 -- "Invalid IV values (not finite numbers)"
  | percentNotDecimal         -- "IV values appear to be percentages instead of decimals"
  | timeDiffNotPositive       -- "Time difference must be positive"
  | forwardVarianceNotPositive -- "Forward variance is negative or zero"
  | forwardVolatilityZero     -- "Forward volatility is zero"
  deriving DecidableEq, Repr

/-- Mirrors the `ForwardFactorResult` dataclass of `src/iv_ff_analyzer.py`.
The two forward-factor fields are real numbers because the valid branch
divides by a square root. -/
structure ForwardFactorResult where
  forward_factor : ℝ
  forward_factor_percent : ℝ
  near_term_dte : ℤ
  next_term_dte : ℤ
  near_term_iv : ℚ
  next_term_iv : ℚ
  is_valid : Bool
  error_message : Option FFError

/-- Models `math.isfinite` on a rational model of a float: every rational models a
finite float, so the predicate is identically true.  Kept so the finiteness
branch of the source is visible in the embedding. -/
def isFinite (_ : ℚ) : Prop := True

instance : DecidablePred isFinite := fun _ => .isTrue trivial

/-- Time fraction `dte / 365.0` used throughout the source. -/
def timeFrac (dte : ℤ) : ℚ := (dte : ℚ) / 365

/-- The forward variance `(v2*t2 - v1*t1) / (t2 - t1)` computed at
line 129 of `src/iv_ff_analyzer.py`. -/
def forwardVariance (dte1 : ℤ) (iv1 : ℚ) (dte2 : ℤ) (iv2 : ℚ) : ℚ :=
  (iv2 * iv2 * timeFrac dte2 - iv1 * iv1 * timeFrac dte1) / (timeFrac dte2 - timeFrac dte1)

/-- The result record every invalid branch of `calculate_forward_factor`
builds: forward-factor fields zero, inputs echoed, `is_valid` false and the
branch's error message. -/
def invalidResult (dte1 : ℤ) (iv1 : ℚ) (dte2 : ℤ) (iv2 : ℚ) (e : FFError) :
    ForwardFactorResult :=
  { forward_factor := 0
    forward_factor_percent := 0
    near_term_dte := dte1
    next_term_dte := dte2
    near_term_iv := iv1
    next_term_iv := iv2
    is_valid := false
    error_message := some e }

open Classical in
/-- Embedding of `calculate_forward_factor` (`src/iv_ff_analyzer.py`,
lines 33-171).  The guards appear in source order; arithmetic is exact. -/
noncomputable def calculate_forward_factor (dte1 : ℤ) (iv1 : ℚ) (dte2 : ℤ) (iv2 : ℚ) :
    ForwardFactorResult :=
  if dte2 ≤ dte1 then invalidResult dte1 iv1 dte2 iv2 .dteOrder
  else if iv1 ≤ 0 ∨ iv2 ≤ 0 then invalidResult dte1 iv1 dte2 iv2 .nonPositiveIV
  else if ¬ (isFinite iv1 ∧ isFinite iv2) then invalidResult dte1 iv1 dte2 iv2 .notFinite
  else if 3 < iv1 ∨ 3 < iv2 then invalidResult dte1 iv1 dte2 iv2 .percentNotDecimal
  else if timeFrac dte2 - timeFrac dte1 ≤ 0 then
    invalidResult dte1 iv1 dte2 iv2 .timeDiffNotPositive
  else if forwardVariance dte1 iv1 dte2 iv2 ≤ 0 then
    invalidResult dte1 iv1 dte2 iv2 .forwardVarianceNotPositive
  else
    let forward_volatility : ℝ := Real.sqrt ((forwardVariance dte1 iv1 dte2 iv2 : ℚ) : ℝ)
    if forward_volatility = 0 then invalidResult dte1 iv1 dte2 iv2 .forwardVolatilityZero
    else
      let ff : ℝ := ((iv1 : ℝ) - forward_volatility) / forward_volatility
      { forward_factor := ff
        forward_factor_percent := ff * 100
        near_term_dte := dte1
        next_term_dte := dte2
        near_term_iv := iv1
        next_term_iv := iv2
        is_valid := true
        error_message := none }

/-- The six validation checks of spec section 4.3, in the spec's order, as a
single decidable predicate.  The sixth check (`σf = 0`) cannot fail once the
forward variance is strictly positive, so it contributes no conjunct. -/
def passes_validation (dte1 : ℤ) (iv1 : ℚ) (dte2 : ℤ) (iv2 : ℚ) : Prop :=
  dte1 < dte2 ∧ (0 < iv1 ∧ 0 < iv2 ∧ isFinite iv1 ∧ isFinite iv2) ∧
    (iv1 ≤ 3 ∧ iv2 ≤ 3) ∧ 0 < timeFrac dte2 - timeFrac dte1 ∧
    0 < forwardVariance dte1 iv1 dte2 iv2

instance (dte1 : ℤ) (iv1 : ℚ) (dte2 : ℤ) (iv2 : ℚ) :
    Decidable (passes_validation dte1 iv1 dte2 iv2) := by
  unfold passes_validation; infer_instance

/-- Modelled from the spec's validation order (section 4.3): the first failing
check, in the spec's numbering, mapped to the error message the source emits
for it.  Used to compare the code's error selection against the spec. -/
def specFirstFailingCheck (dte1 : ℤ) (iv1 : ℚ) (dte2 : ℤ) (iv2 : ℚ) : Option FFError :=
  if ¬ dte1 < dte2 then some .dteOrder
  else if iv1 ≤ 0 ∨ iv2 ≤ 0 then some .nonPositiveIV
  else if ¬ (isFinite iv1 ∧ isFinite iv2) then some .notFinite
  else if 3 < iv1 ∨ 3 < iv2 then some .percentNotDecimal
  else if ¬ 0 < timeFrac dte2 - timeFrac dte1 then some .timeDiffNotPositive
  else if ¬ 0 < forwardVariance dte1 iv1 dte2 iv2 then some .forwardVarianceNotPositive
  else none

/-! ## Opportunity classification and confidence
(`src/iv_ff_analyzer.py`, `calculate_forward_factor_opportunity`, lines 461-487) -/

/-- The `opportunity_type` strings of `calculate_forward_factor_opportunity`. -/
inductive OppType where
  | bullish
  | bearish
  | neutral
  deriving DecidableEq, Repr

open Classical in
/-- Embedding of the classification-and-confidence fragment of
`calculate_forward_factor_opportunity` (`src/iv_ff_analyzer.py`,
lines 461-487).  The fragment reads only the `ForwardFactorResult` (possibly
absent) and the two chains' liquid-option counts; `opportunity_type` starts
`neutral` and `confidence_score` starts `0.0`, both updated only when the
result exists and is valid, and the confidence is finally multiplied by the
liquidity adjustment `min(near_count/20, next_count/20)`. -/
noncomputable def classify_and_confidence (ff_result : Option ForwardFactorResult)
    (near_liquid_count next_liquid_count : ℕ) : OppType × ℝ :=
  match ff_result with
  | none => (.neutral, 0)
  | some r =>
    if r.is_valid = true then
      let ff_pct := r.forward_factor_percent
      let classified : OppType × ℝ :=
        if 5 < ff_pct then (.bullish, min 100 (|ff_pct| * 5))
        else if ff_pct < -5 then (.bearish, min 100 (|ff_pct| * 5))
        else (.neutral, 20)
      let liquidity_adjustment : ℝ :=
        min ((near_liquid_count : ℝ) / 20) ((next_liquid_count : ℝ) / 20)
      (classified.1, classified.2 * liquidity_adjustment)
    else (.neutral, 0)

/-! ## Liquidity filter (`src/liquidity_filter.py`) -/

/-- Option side, modelling the `option_type` strings `CALL` / `PUT`. -/
inductive OptionSide where
  | call
  | put
  deriving DecidableEq, Repr

/-- Mirrors the quote fields of the `OptionData` dataclass used by the
liquidity filter (`src/options_scanner.py`). -/
structure OptionData where
  strike : ℚ
  option_type : OptionSide
  bid : ℚ
  ask : ℚ
  last : ℚ
  volume : ℤ
  open_interest : ℤ
  deriving DecidableEq, Repr

/-- Mirrors the `LiquidityThresholds` dataclass with its defaults. -/
structure LiquidityThresholds where
  min_volume : ℤ := 50
  min_open_interest : ℤ := 100
  max_bid_ask_spread_pct : ℚ := 10
  min_bid : ℚ := 1/20
  min_ask : ℚ := 1/10
  max_bid_ask_spread_abs : ℚ := 2
  min_mid_price : ℚ := 1/10
  min_volume_oi_frac : ℚ := 1/10
  max_days_to_expiration : ℤ := 90
  min_days_to_expiration : ℤ := 7
  deriving DecidableEq, Repr

/-- The default threshold configuration (`LiquidityThresholds()`). -/
def defaultThresholds : LiquidityThresholds := {}

/-- The distinct reason messages of the liquidity filter, one constructor per
message string of `evaluate_option_liquidity` and
`evaluate_delta_option_liquidity`. -/
inductive LiqReason where
  | lowVolume
  | lowOpenInterest
  | invalidBidAsk
  | wideSpreadPct
  | wideSpreadAbs
  | lowBid
  | lowAsk
  | lowMidPrice
  | lowVolumeOIFrac
  | meetsAllCriteria
  | noBidOrAsk
  | extremelyLowMidPrice
  | extremelyWideSpread
  | meetsDeltaCriteria
  deriving DecidableEq, Repr

/-- Mirrors the `LiquidityScore` dataclass. -/
structure LiquidityScore where
  option : OptionData
  volume_score : ℚ
  open_interest_score : ℚ
  spread_score : ℚ
  overall_score : ℚ
  is_liquid : Bool
  reasons : List LiqReason
  deriving DecidableEq, Repr

/-- Embedding of `calculate_bid_ask_spread_pct`: spread as a percentage of the mid price,
`none` standing for the source's `float('inf')`. -/
def calculate_bid_ask_spread_pct (o : OptionData) : Option ℚ :=
  if o.bid ≤ 0 ∨ o.ask ≤ 0 then none
  else
    let mid_price := (o.bid + o.ask) / 2
    if mid_price ≤ 0 then none
    else some ((o.ask - o.bid) / mid_price * 100)

/-- Embedding of `calculate_mid_price`: zero when either quote side is non-positive. -/
def calculate_mid_price (o : OptionData) : ℚ :=
  if o.bid ≤ 0 ∨ o.ask ≤ 0 then 0 else (o.bid + o.ask) / 2

/-- Embedding of the source function `calculate_volume_oi_ratio`; renamed here. -/
def calculate_volume_oi_frac (o : OptionData) : ℚ :=
  if o.open_interest ≤ 0 then 0 else (o.volume : ℚ) / (o.open_interest : ℚ)

/-- The absolute spread `option.ask - option.bid if option.ask > option.bid
else float('inf')` computed inside both evaluation functions; `none` stands
for `float('inf')`. -/
def spreadAbs (o : OptionData) : Option ℚ :=
  if o.bid < o.ask then some (o.ask - o.bid) else none

/-- Embedding of `evaluate_option_liquidity` (`src/liquidity_filter.py`,
lines 83-161).  In the source `is_liquid` is set to `False` exactly where a
reason is appended, so it is transcribed as the negated disjunction of the
same conditions, in source order; the reasons list concatenates the same
conditions' messages in source order. -/
def evaluate_option_liquidity (t : LiquidityThresholds) (o : OptionData) :
    LiquidityScore :=
  let mid_price := calculate_mid_price o
  let spread_pct := calculate_bid_ask_spread_pct o
  let spread_abs := spreadAbs o
  let volume_oi_frac := calculate_volume_oi_frac o
  let volume_score : ℚ := min 100 ((o.volume : ℚ) / (t.min_volume : ℚ) * 25)
  let volFail := decide (o.volume < t.min_volume)
  let oi_score : ℚ := min 100 ((o.open_interest : ℚ) / (t.min_open_interest : ℚ) * 25)
  let oiFail := decide (o.open_interest < t.min_open_interest)
  let spreadEval : ℚ × Bool × Bool × Bool :=
    match spread_pct with
    | none => (0, true, false, false)
    | some p =>
      (max 0 (100 - p * 5), false, decide (t.max_bid_ask_spread_pct < p),
        match spread_abs with
        | none => true
        | some a => decide (t.max_bid_ask_spread_abs < a))
  let spread_score := spreadEval.1
  let invalidFail := spreadEval.2.1
  let pctFail := spreadEval.2.2.1
  let absFail := spreadEval.2.2.2
  let bidFail := decide (o.bid < t.min_bid)
  let askFail := decide (o.ask < t.min_ask)
  let midFail := decide (mid_price < t.min_mid_price)
  let ratioFail := decide (volume_oi_frac < t.min_volume_oi_frac)
  let failures : List LiqReason :=
    (if volFail then [.lowVolume] else []) ++
    (if oiFail then [.lowOpenInterest] else []) ++
    (if invalidFail then [.invalidBidAsk] else []) ++
    (if pctFail then [.wideSpreadPct] else []) ++
    (if absFail then [.wideSpreadAbs] else []) ++
    (if bidFail then [.lowBid] else []) ++
    (if askFail then [.lowAsk] else []) ++
    (if midFail then [.lowMidPrice] else []) ++
    (if ratioFail then [.lowVolumeOIFrac] else [])
  let overall_score := volume_score * (4/10) + oi_score * (4/10) + spread_score * (2/10)
  { option := o
    volume_score := volume_score
    open_interest_score := oi_score
    spread_score := spread_score
    overall_score := overall_score
    is_liquid := !(volFail || oiFail || invalidFail || pctFail || absFail ||
      bidFail || askFail || midFail || ratioFail)
    reasons := if failures.isEmpty then [.meetsAllCriteria] else failures }

/-- Embedding of `evaluate_delta_option_liquidity` (`src/liquidity_filter.py`,
lines 365-439), the relaxed delta-focused evaluation.  The absolute spread is
computed but never tested in the source; the transcription keeps the same
conditions in source order. -/
def evaluate_delta_option_liquidity (t : LiquidityThresholds) (o : OptionData)
    (delta_distance : ℚ) : LiquidityScore :=
  let mid_price := calculate_mid_price o
  let spread_pct := calculate_bid_ask_spread_pct o
  let relaxed_min_volume : ℤ := max 1 (Int.fdiv t.min_volume 20)
  let relaxed_min_oi : ℤ := max 1 (Int.fdiv t.min_open_interest 20)
  let relaxed_max_spread_pct : ℚ := min 75 (t.max_bid_ask_spread_pct * 5)
  let volume_score : ℚ := min 100 ((o.volume : ℚ) / (relaxed_min_volume : ℚ) * 30)
  let volFail := decide (o.volume < relaxed_min_volume)
  let oi_score : ℚ := min 100 ((o.open_interest : ℚ) / (relaxed_min_oi : ℚ) * 30)
  let oiFail := decide (o.open_interest < relaxed_min_oi)
  let spreadEval : ℚ × Bool × Bool :=
    match spread_pct with
    | none => (0, true, false)
    | some p => (max 0 (100 - p * (3/2)), false, decide (relaxed_max_spread_pct < p))
  let spread_score := spreadEval.1
  let invalidFail := spreadEval.2.1
  let pctFail := spreadEval.2.2
  let noQuoteFail := decide (o.bid ≤ 0 ∧ o.ask ≤ 0)
  let midFail := decide (mid_price < 1/200)
  let delta_bonus : ℚ := max 0 (15 - delta_distance)
  let failures : List LiqReason :=
    (if volFail then [.lowVolume] else []) ++
    (if oiFail then [.lowOpenInterest] else []) ++
    (if invalidFail then [.invalidBidAsk] else []) ++
    (if pctFail then [.extremelyWideSpread] else []) ++
    (if noQuoteFail then [.noBidOrAsk] else []) ++
    (if midFail then [.extremelyLowMidPrice] else [])
  let overall_score := volume_score * (1/4) + oi_score * (1/4) +
    spread_score * (1/4) + delta_bonus * (1/4)
  { option := o
    volume_score := volume_score
    open_interest_score := oi_score
    spread_score := spread_score
    overall_score := overall_score
    is_liquid := !(volFail || oiFail || invalidFail || pctFail || noQuoteFail || midFail)
    reasons := if failures.isEmpty then [.meetsDeltaCriteria] else failures }

/-! ## Expiration-pair selection
(`src/professional_scanner.py` lines 54-73 and
`src/forward_factor_scanner.py` lines 292-311) -/

/-- One timeframe specification `(near_target, near_buffer, next_target,
next_buffer)` from the `timeframe_specs` lists. -/
structure TimeframeSpec where
  near_target : ℤ
  near_buffer : ℤ
  next_target : ℤ
  next_buffer : ℤ
  deriving DecidableEq, Repr

/-- The near-term DTE window `[near_target - near_buffer, near_target + near_buffer]`. -/
def inNearWindow (s : TimeframeSpec) (d : ℤ) : Prop :=
  s.near_target - s.near_buffer ≤ d ∧ d ≤ s.near_target + s.near_buffer

instance (s : TimeframeSpec) (d : ℤ) : Decidable (inNearWindow s d) := by
  unfold inNearWindow; infer_instance

/-- The next-term DTE window `[next_target - next_buffer, next_target + next_buffer]`. -/
def inNextWindow (s : TimeframeSpec) (d : ℤ) : Prop :=
  s.next_target - s.next_buffer ≤ d ∧ d ≤ s.next_target + s.next_buffer

instance (s : TimeframeSpec) (d : ℤ) : Decidable (inNextWindow s d) := by
  unfold inNextWindow; infer_instance

/-- The pair score `abs(chain1.dte - near_target) + abs(chain2.dte - next_target)`. -/
def pairScore (s : TimeframeSpec) (p : ℤ × ℤ) : ℤ :=
  |p.1 - s.near_target| + |p.2 - s.next_target|

/-- The candidate pairs enumerated by the nested loops of
`scan_professional_forward_factors` (`src/professional_scanner.py`,
lines 62-65): the outer loop walks the chain list, the inner loop walks only
the strict suffix after the outer position (`valid_chains[i+1:]`), and each
loop keeps only DTEs inside its window.  Chains are represented by their DTE;
the list order is the iteration order. -/
def candidatePairsPro (chains : List ℤ) (s : TimeframeSpec) : List (ℤ × ℤ) :=
  match chains with
  | [] => []
  | d1 :: rest =>
    (if inNearWindow s d1 then
      (rest.filter (fun d2 => decide (inNextWindow s d2))).map (fun d2 => (d1, d2))
    else []) ++ candidatePairsPro rest s

/-- The candidate pairs enumerated by the nested loops of `run_strategy`
(`src/forward_factor_scanner.py`, lines 300-307): both loops walk the whole
chain list, so the inner chain may sit at or before the outer chain. -/
def candidatePairsScan (chains : List ℤ) (s : TimeframeSpec) : List (ℤ × ℤ) :=
  chains.flatMap (fun d1 =>
    if inNearWindow s d1 then
      (chains.filter (fun d2 => decide (inNextWindow s d2))).map (fun d2 => (d1, d2))
    else [])

/-- The `best_pair` / `best_score` accumulation shared by both scanners:
starting from `best_pair = None`, `best_score = inf`, a candidate replaces the
current best exactly when its score is strictly smaller. -/
def selectBest (s : TimeframeSpec) (cands : List (ℤ × ℤ)) : Option (ℤ × ℤ) :=
  cands.foldl
    (fun best p =>
      match best with
      | none => some p
      | some b => if pairScore s p < pairScore s b then some p else some b)
    none

/-- Pair selection of `scan_professional_forward_factors` for one timeframe. -/
def select_pair_pro (chains : List ℤ) (s : TimeframeSpec) : Option (ℤ × ℤ) :=
  selectBest s (candidatePairsPro chains s)

/-- Pair selection of `run_strategy` in `src/forward_factor_scanner.py` for
one timeframe. -/
def select_pair_scan (chains : List ℤ) (s : TimeframeSpec) : Option (ℤ × ℤ) :=
  selectBest s (candidatePairsScan chains s)

/-- The `(60, 20, 90, 25)` timeframe from the `timeframe_specs` lists. -/
def spec6090 : TimeframeSpec :=
  { near_target := 60, near_buffer := 20, next_target := 90, next_buffer := 25 }

/-! ## Implied volatility solver boundary
(`src/iv_calculator.py`, `ImpliedVolatilityCalculator.calculate_iv`) -/

/-- Embedding of `ImpliedVolatilityCalculator.calculate_iv`
(`src/iv_calculator.py`, lines 19-76).  The py_vollib root finder is an
external library, so it enters as an explicit parameter `solver` whose
`Except.error` outcome models any exception it raises; the surrounding
`try/except` maps that outcome to `none`.  The guards, the intrinsic-value
computation and the `[0.01, 3.0]` band check are transcribed from the source.
`option_type` is a character compared, lower-cased, against `c`. -/
def calculate_iv (solver : ℚ → ℚ → ℚ → ℚ → ℚ → Char → Except Unit ℚ)
    (option_price underlying_price strike_price time_to_expiry risk_free_rate : ℚ)
    (option_type : Char) : Option ℚ :=
  if option_price ≤ 0 ∨ underlying_price ≤ 0 ∨ strike_price ≤ 0 ∨ time_to_expiry ≤ 0 then
    none
  else
    let intrinsic : ℚ :=
      if option_type.toLower = 'c' then max 0 (underlying_price - strike_price)
      else max 0 (strike_price - underlying_price)
    if option_price < intrinsic then none
    else
      match solver option_price underlying_price strike_price time_to_expiry
        risk_free_rate option_type.toLower with
      | .error _ => none
      | .ok iv => if 1/100 ≤ iv ∧ iv ≤ 3 then some iv else none

/-! ## Theorems: Forward Factor calculator -/

/-- When all validation checks pass, `calculate_forward_factor` takes the
success branch. -/
theorem calculate_forward_factor_of_valid (dte1 : ℤ) (iv1 : ℚ) (dte2 : ℤ) (iv2 : ℚ)
    (h : passes_validation dte1 iv1 dte2 iv2) :
    calculate_forward_factor dte1 iv1 dte2 iv2 =
      { forward_factor := ((iv1 : ℝ) -
          Real.sqrt ((forwardVariance dte1 iv1 dte2 iv2 : ℚ) : ℝ)) /
          Real.sqrt ((forwardVariance dte1 iv1 dte2 iv2 : ℚ) : ℝ)
        forward_factor_percent := (((iv1 : ℝ) -
          Real.sqrt ((forwardVariance dte1 iv1 dte2 iv2 : ℚ) : ℝ)) /
          Real.sqrt ((forwardVariance dte1 iv1 dte2 iv2 : ℚ) : ℝ)) * 100
        near_term_dte := dte1
        next_term_dte := dte2
        near_term_iv := iv1
        next_term_iv := iv2
        is_valid := true
        error_message := none } := by
  obtain ⟨h1, ⟨h2a, h2b, -, -⟩, ⟨h3a, h3b⟩, h4, h5⟩ := h
  have hfv : (0 : ℝ) < ((forwardVariance dte1 iv1 dte2 iv2 : ℚ) : ℝ) := by
    exact_mod_cast h5
  have hsq : Real.sqrt ((forwardVariance dte1 iv1 dte2 iv2 : ℚ) : ℝ) ≠ 0 :=
    ne_of_gt (Real.sqrt_pos.mpr hfv)
  unfold calculate_forward_factor
  rw [if_neg (not_le.mpr h1), if_neg (by push_neg; exact ⟨h2a, h2b⟩),
    if_neg (by simp [isFinite]), if_neg (by push_neg; exact ⟨h3a, h3b⟩),
    if_neg (not_le.mpr h4), if_neg (not_le.mpr h5)]
  simp only [if_neg hsq]

/-- C1: for every input passing all validation checks,
`calculate_forward_factor` returns a valid result whose forward factor is
`(iv1 - σf) / σf` with `σf = sqrt((iv2²·(dte2/365) - iv1²·(dte1/365)) /
(dte2/365 - dte1/365))` and whose percentage is `100` times the ratio; in
particular, for `dte1 = 25, iv1 = 0.604, dte2 = 74, iv2 = 0.496` the result
is valid with `forward_factor_percent` within `0.5` of `40.3`. -/
theorem forward_factor_formula_and_example :
    (∀ (dte1 : ℤ) (iv1 : ℚ) (dte2 : ℤ) (iv2 : ℚ),
      passes_validation dte1 iv1 dte2 iv2 →
        (calculate_forward_factor dte1 iv1 dte2 iv2).is_valid = true ∧
        (calculate_forward_factor dte1 iv1 dte2 iv2).forward_factor =
          ((iv1 : ℝ) - Real.sqrt (((iv2 : ℝ) ^ 2 * ((dte2 : ℝ) / 365) -
              (iv1 : ℝ) ^ 2 * ((dte1 : ℝ) / 365)) /
              ((dte2 : ℝ) / 365 - (dte1 : ℝ) / 365))) /
            Real.sqrt (((iv2 : ℝ) ^ 2 * ((dte2 : ℝ) / 365) -
              (iv1 : ℝ) ^ 2 * ((dte1 : ℝ) / 365)) /
              ((dte2 : ℝ) / 365 - (dte1 : ℝ) / 365)) ∧
        (calculate_forward_factor dte1 iv1 dte2 iv2).forward_factor_percent =
          100 * (calculate_forward_factor dte1 iv1 dte2 iv2).forward_factor) ∧
    ((calculate_forward_factor 25 (604/1000) 74 (496/1000)).is_valid = true ∧
      |(calculate_forward_factor 25 (604/1000) 74 (496/1000)).forward_factor_percent
        - 40.3| ≤ 0.5) := by
  have hcast : ∀ (dte1 : ℤ) (iv1 : ℚ) (dte2 : ℤ) (iv2 : ℚ),
      ((forwardVariance dte1 iv1 dte2 iv2 : ℚ) : ℝ) =
        ((iv2 : ℝ) ^ 2 * ((dte2 : ℝ) / 365) - (iv1 : ℝ) ^ 2 * ((dte1 : ℝ) / 365)) /
          ((dte2 : ℝ) / 365 - (dte1 : ℝ) / 365) := by
    intro dte1 iv1 dte2 iv2
    unfold forwardVariance timeFrac
    push_cast
    ring_nf
  constructor
  · intro dte1 iv1 dte2 iv2 h
    rw [calculate_forward_factor_of_valid dte1 iv1 dte2 iv2 h]
    refine ⟨rfl, ?_, ?_⟩
    · rw [hcast]
    · simp only []
      ring
  · have hpass : passes_validation 25 (604/1000) 74 (496/1000) := by
      refine ⟨by norm_num, ⟨by norm_num, by norm_num, trivial, trivial⟩,
        ⟨by norm_num, by norm_num⟩, ?_, ?_⟩
      · unfold timeFrac; norm_num
      · unfold forwardVariance timeFrac; norm_num
    have hfv : forwardVariance 25 (604/1000) 74 (496/1000) = 567799/3062500 := by
      unfold forwardVariance timeFrac; norm_num
    rw [calculate_forward_factor_of_valid 25 (604/1000) 74 (496/1000) hpass]
    refine ⟨rfl, ?_⟩
    rw [hfv]
    have hfvR : ((567799/3062500 : ℚ) : ℝ) = 567799/3062500 := by norm_num
    rw [hfvR]
    set s : ℝ := Real.sqrt (567799/3062500) with hs
    have hspos : 0 < s := Real.sqrt_pos.mpr (by norm_num)
    have hup : s ≤ 302/699 := by
      have h2 : (567799/3062500 : ℝ) ≤ (302/699) ^ 2 := by norm_num
      calc s ≤ Real.sqrt ((302/699) ^ 2) := Real.sqrt_le_sqrt h2
        _ = 302/699 := Real.sqrt_sq (by norm_num)
    have hlo : (151/352 : ℝ) ≤ s := by
      have h2 : ((151/352 : ℝ)) ^ 2 ≤ (567799/3062500 : ℝ) := by norm_num
      calc (151/352 : ℝ) = Real.sqrt ((151/352) ^ 2) := (Real.sqrt_sq (by norm_num)).symm
        _ ≤ s := Real.sqrt_le_sqrt h2
    have hiv : ((604/1000 : ℚ) : ℝ) = 151/250 := by norm_num
    rw [hiv, abs_le]
    dsimp only
    have e1 : ((151/250 : ℝ) - s) / s * 100 ≤ 40.8 := by
      rw [div_mul_eq_mul_div, div_le_iff₀ hspos]
      nlinarith
    have e2 : (39.8 : ℝ) ≤ ((151/250 : ℝ) - s) / s * 100 := by
      rw [div_mul_eq_mul_div, le_div_iff₀ hspos]
      nlinarith
    constructor
    · norm_num at e2 ⊢
      linarith
    · norm_num at e1 ⊢
      linarith

/-- Closed witness for the hypothesis of the universal part of
`forward_factor_formula_and_example`, instantiated at the worked example. -/
theorem forward_factor_formula_witness :
    passes_validation 25 (604/1000) 74 (496/1000) ∧
      (calculate_forward_factor 25 (604/1000) 74 (496/1000)).is_valid = true := by
  have hpass : passes_validation 25 (604/1000) 74 (496/1000) := by
    refine ⟨by norm_num, ⟨by norm_num, by norm_num, trivial, trivial⟩,
      ⟨by norm_num, by norm_num⟩, ?_, ?_⟩
    · unfold timeFrac; norm_num
    · unfold forwardVariance timeFrac; norm_num
  exact ⟨hpass,
    (forward_factor_formula_and_example.1 25 (604/1000) 74 (496/1000) hpass).1⟩

/-- C2: `calculate_forward_factor` returns `is_valid = false` exactly when one
of the validation checks fails, its error message is the one for the first
failing check in the spec's order, and every invalid result carries an error
message with both forward-factor fields zero.  The embedding is a total
function, so no exception escapes. -/
theorem validation_checks_and_errors (dte1 : ℤ) (iv1 : ℚ) (dte2 : ℤ) (iv2 : ℚ) :
    ((calculate_forward_factor dte1 iv1 dte2 iv2).is_valid = false ↔
      ¬ passes_validation dte1 iv1 dte2 iv2) ∧
    (calculate_forward_factor dte1 iv1 dte2 iv2).error_message =
      specFirstFailingCheck dte1 iv1 dte2 iv2 ∧
    ((calculate_forward_factor dte1 iv1 dte2 iv2).is_valid = false →
      (calculate_forward_factor dte1 iv1 dte2 iv2).error_message ≠ none ∧
      (calculate_forward_factor dte1 iv1 dte2 iv2).forward_factor = 0 ∧
      (calculate_forward_factor dte1 iv1 dte2 iv2).forward_factor_percent = 0) := by
  by_cases h1 : dte2 ≤ dte1
  · have hnp : ¬ passes_validation dte1 iv1 dte2 iv2 := by
      rintro ⟨hlt, -, -, -, -⟩
      omega
    simp [calculate_forward_factor, specFirstFailingCheck, invalidResult, h1,
      not_lt.mpr h1, hnp]
  · by_cases h2 : iv1 ≤ 0 ∨ iv2 ≤ 0
    · have hnp : ¬ passes_validation dte1 iv1 dte2 iv2 := by
        rintro ⟨-, ⟨p1, p2, -, -⟩, -, -, -⟩
        rcases h2 with h | h
        · linarith
        · linarith
      simp [calculate_forward_factor, specFirstFailingCheck, invalidResult, h1,
        not_le.mp h1, h2, hnp]
    · by_cases h3 : 3 < iv1 ∨ 3 < iv2
      · have hnp : ¬ passes_validation dte1 iv1 dte2 iv2 := by
          rintro ⟨-, -, ⟨q1, q2⟩, -, -⟩
          rcases h3 with h | h
          · linarith
          · linarith
        simp [calculate_forward_factor, specFirstFailingCheck, invalidResult, isFinite,
          h1, not_le.mp h1, h2, h3, hnp]
      · by_cases h4 : timeFrac dte2 - timeFrac dte1 ≤ 0
        · have hnp : ¬ passes_validation dte1 iv1 dte2 iv2 := by
            rintro ⟨-, -, -, ht, -⟩
            linarith
          simp [calculate_forward_factor, specFirstFailingCheck, invalidResult, isFinite,
            h1, not_le.mp h1, h2, h3, h4, not_lt.mpr h4, hnp]
        · by_cases h5 : forwardVariance dte1 iv1 dte2 iv2 ≤ 0
          · have hnp : ¬ passes_validation dte1 iv1 dte2 iv2 := by
              rintro ⟨-, -, -, -, hv⟩
              linarith
            simp [calculate_forward_factor, specFirstFailingCheck, invalidResult, isFinite,
              h1, not_le.mp h1, h2, h3, h4, not_le.mp h4, h5, not_lt.mpr h5, hnp]
          · push_neg at h2 h3
            have hp : passes_validation dte1 iv1 dte2 iv2 :=
              ⟨not_le.mp h1, ⟨h2.1, h2.2, trivial, trivial⟩, h3,
                not_le.mp h4, not_le.mp h5⟩
            rw [calculate_forward_factor_of_valid dte1 iv1 dte2 iv2 hp]
            simp [specFirstFailingCheck, isFinite, hp, not_le.mp h1,
              h2.1.not_le, h2.2.not_le, h3.1.not_lt, h3.2.not_lt,
              not_le.mp h4, not_le.mp h5]

/-- Closed witness for `validation_checks_and_errors`: at an input failing the
first check the result is invalid with the matching error message and zeroed
forward-factor fields. -/
theorem validation_checks_and_errors_witness :
    (calculate_forward_factor 60 1 30 1).error_message ≠ none ∧
      (calculate_forward_factor 60 1 30 1).forward_factor = 0 ∧
      (calculate_forward_factor 60 1 30 1).forward_factor_percent = 0 :=
  (validation_checks_and_errors 60 1 30 1).2.2
    (by simp [calculate_forward_factor, invalidResult])

/-- C10: once the forward-variance check passes, the forward volatility
`sqrt(forward_variance)` is strictly positive, so the distinct
"forward volatility is zero" failure of `calculate_forward_factor` can never
be returned, for any input. -/
theorem forward_volatility_zero_unreachable (dte1 : ℤ) (iv1 : ℚ) (dte2 : ℤ) (iv2 : ℚ) :
    (0 < forwardVariance dte1 iv1 dte2 iv2 →
      0 < Real.sqrt ((forwardVariance dte1 iv1 dte2 iv2 : ℚ) : ℝ)) ∧
    (calculate_forward_factor dte1 iv1 dte2 iv2).error_message ≠
      some FFError.forwardVolatilityZero := by
  constructor
  · intro h
    exact Real.sqrt_pos.mpr (by exact_mod_cast h)
  · unfold calculate_forward_factor
    split_ifs with hc1 hc2 hc3 hc4 hc5 hc6 <;> try simp [invalidResult]
    rw [if_neg (ne_of_gt (Real.sqrt_pos.mpr
      (show (0:ℝ) < ((forwardVariance dte1 iv1 dte2 iv2 : ℚ) : ℝ) by
        exact_mod_cast not_le.mp hc6)))]
    simp

/-- Closed witness for `forward_volatility_zero_unreachable` at the worked
example, discharging the positive-forward-variance hypothesis. -/
theorem forward_volatility_zero_unreachable_witness :
    0 < Real.sqrt ((forwardVariance 25 (604/1000) 74 (496/1000) : ℚ) : ℝ) ∧
      (calculate_forward_factor 25 (604/1000) 74 (496/1000)).error_message ≠
        some FFError.forwardVolatilityZero := by
  have h := forward_volatility_zero_unreachable 25 (604/1000) 74 (496/1000)
  exact ⟨h.1 (by unfold forwardVariance timeFrac; norm_num), h.2⟩

/-! ## Theorems: classification and confidence -/

/-- Helper: at `dte1 = 30, iv1 = 0.25, dte2 = 60, iv2 = 0.25` the forward
volatility is exactly `0.25`, so the forward factor is exactly zero. -/
theorem cff_flat_term_structure :
    calculate_forward_factor 30 (1/4) 60 (1/4) =
      { forward_factor := 0
        forward_factor_percent := 0
        near_term_dte := 30
        next_term_dte := 60
        near_term_iv := 1/4
        next_term_iv := 1/4
        is_valid := true
        error_message := none } := by
  have hfv : forwardVariance 30 (1/4) 60 (1/4) = 1/16 := by
    unfold forwardVariance timeFrac
    norm_num
  have hpass : passes_validation 30 (1/4) 60 (1/4) := by
    refine ⟨by norm_num, ⟨by norm_num, by norm_num, trivial, trivial⟩,
      ⟨by norm_num, by norm_num⟩, ?_, ?_⟩
    · unfold timeFrac; norm_num
    · rw [hfv]; norm_num
  have hsq : Real.sqrt ((forwardVariance 30 (1/4) 60 (1/4) : ℚ) : ℝ) = 1/4 := by
    rw [hfv, show (((1:ℚ)/16 : ℚ) : ℝ) = (1/4 : ℝ)^2 by norm_num,
      Real.sqrt_sq (by norm_num : (0:ℝ) ≤ 1/4)]
  rw [calculate_forward_factor_of_valid 30 (1/4) 60 (1/4) hpass, hsq]
  norm_num

/-- C3 counterexample: a valid result with a forward factor of exactly zero
and both liquid counts 20 gets confidence 20 from the code (the neutral
branch assigns a flat base of 20), while the claimed formula
`min(100, |FF%|·5) · min(near/20, next/20)` gives 0. -/
theorem confidence_neutral_counterexample :
    (calculate_forward_factor 30 (1/4) 60 (1/4)).is_valid = true ∧
    (classify_and_confidence (some (calculate_forward_factor 30 (1/4) 60 (1/4))) 20 20).2
      = 20 ∧
    min 100 (|(calculate_forward_factor 30 (1/4) 60 (1/4)).forward_factor_percent| * 5) *
      min ((20:ℝ)/20) ((20:ℝ)/20) = 0 := by
  rw [cff_flat_term_structure]
  refine ⟨rfl, ?_, ?_⟩
  · simp only [classify_and_confidence]
    norm_num
  · norm_num

/-- C3 amended: for a valid result the confidence is
`min(100, |FF%|·5) · min(near/20, next/20)` when `|FF%| > 5` (bullish or
bearish classification), but a flat `20 · min(near/20, next/20)` when
`|FF%| ≤ 5` (neutral classification). -/
theorem confidence_formula (r : ForwardFactorResult) (n1 n2 : ℕ)
    (hv : r.is_valid = true) :
    (5 < |r.forward_factor_percent| →
      (classify_and_confidence (some r) n1 n2).2 =
        min 100 (|r.forward_factor_percent| * 5) * min ((n1 : ℝ)/20) ((n2 : ℝ)/20)) ∧
    (|r.forward_factor_percent| ≤ 5 →
      (classify_and_confidence (some r) n1 n2).2 =
        20 * min ((n1 : ℝ)/20) ((n2 : ℝ)/20)) := by
  simp only [classify_and_confidence, hv, if_true]
  constructor
  · intro h
    by_cases h1 : 5 < r.forward_factor_percent
    · simp [h1]
    · have h2 : r.forward_factor_percent < -5 := by
        rcases abs_cases r.forward_factor_percent with ⟨he, -⟩ | ⟨he, -⟩
        · rw [he] at h; linarith
        · rw [he] at h; linarith
      simp [h1, h2]
  · intro h
    have h1 : ¬ 5 < r.forward_factor_percent := by
      have := le_abs_self r.forward_factor_percent
      linarith
    have h2 : ¬ r.forward_factor_percent < -5 := by
      have := neg_abs_le r.forward_factor_percent
      linarith
    simp [h1, h2]

/-- Closed witness for `confidence_formula`, applied to the flat-term-structure
result (forward factor zero, neutral branch). -/
theorem confidence_formula_witness :
    (classify_and_confidence (some (calculate_forward_factor 30 (1/4) 60 (1/4))) 20 20).2
      = 20 * min ((20:ℝ)/20) ((20:ℝ)/20) :=
  (confidence_formula (calculate_forward_factor 30 (1/4) 60 (1/4)) 20 20
    (by rw [cff_flat_term_structure])).2
    (by rw [cff_flat_term_structure]; norm_num)

/-- C4 failing input: at the worked example (`FF% ≈ 40.3`) with both
liquid-option counts equal to 40, the code's confidence is exactly 200: the
base `min(100, |FF%|·5)` caps at 100, but the liquidity adjustment
`min(40/20, 40/20) = 2` is not capped at 1, so the final score leaves the
documented 0-100 range. -/
theorem confidence_score_overflow :
    (classify_and_confidence
      (some (calculate_forward_factor 25 (604/1000) 74 (496/1000))) 40 40).2 = 200 := by
  have hpass : passes_validation 25 (604/1000) 74 (496/1000) := by
    refine ⟨by norm_num, ⟨by norm_num, by norm_num, trivial, trivial⟩,
      ⟨by norm_num, by norm_num⟩, ?_, ?_⟩
    · unfold timeFrac; norm_num
    · unfold forwardVariance timeFrac; norm_num
  have hfv : forwardVariance 25 (604/1000) 74 (496/1000) = 567799/3062500 := by
    unfold forwardVariance timeFrac; norm_num
  rw [calculate_forward_factor_of_valid 25 (604/1000) 74 (496/1000) hpass, hfv]
  have hfvR : ((567799/3062500 : ℚ) : ℝ) = 567799/3062500 := by norm_num
  rw [hfvR]
  set s : ℝ := Real.sqrt (567799/3062500) with hs
  have hspos : 0 < s := Real.sqrt_pos.mpr (by norm_num)
  have hup : s ≤ 302/699 := by
    have h2 : (567799/3062500 : ℝ) ≤ (302/699) ^ 2 := by norm_num
    calc s ≤ Real.sqrt ((302/699) ^ 2) := Real.sqrt_le_sqrt h2
      _ = 302/699 := Real.sqrt_sq (by norm_num)
  have hiv : ((604/1000 : ℚ) : ℝ) = 151/250 := by norm_num
  have h20 : (20:ℝ) ≤ ((151/250 : ℝ) - s) / s * 100 := by
    rw [div_mul_eq_mul_div, le_div_iff₀ hspos]
    nlinarith
  have h5 : (5:ℝ) < ((151/250 : ℝ) - s) / s * 100 := by linarith
  simp only [classify_and_confidence, hiv]
  rw [if_pos trivial]
  dsimp only
  rw [if_pos h5]
  dsimp only
  have habs : |((151/250 : ℝ) - s) / s * 100| = ((151/250 : ℝ) - s) / s * 100 :=
    abs_of_pos (by linarith)
  rw [habs]
  have hmin : min (100:ℝ) (((151/250 : ℝ) - s) / s * 100 * 5) = 100 :=
    min_eq_left (by linarith)
  rw [hmin]
  norm_num

/-- C9: holding the liquid counts fixed, the confidence of a valid result is
non-decreasing in `|forward_factor_percent|` (including across the ±5
neutral/bullish and neutral/bearish boundaries, where the base jumps from 20
to more than 25); holding the result fixed, it is non-decreasing in
`min(near_count, next_count)`. -/
theorem confidence_monotone (r1 r2 : ForwardFactorResult) (n1 n2 m1 m2 : ℕ)
    (hv1 : r1.is_valid = true) (hv2 : r2.is_valid = true) :
    (|r1.forward_factor_percent| ≤ |r2.forward_factor_percent| →
      (classify_and_confidence (some r1) n1 n2).2 ≤
        (classify_and_confidence (some r2) n1 n2).2) ∧
    (min n1 n2 ≤ min m1 m2 →
      (classify_and_confidence (some r1) n1 n2).2 ≤
        (classify_and_confidence (some r1) m1 m2).2) := by
  have hliq_nonneg : ∀ a b : ℕ, (0:ℝ) ≤ min ((a : ℝ)/20) ((b : ℝ)/20) := by
    intro a b
    exact le_min (by positivity) (by positivity)
  have hbase_nonneg : ∀ x : ℝ,
      0 ≤ (if 5 < x then ((OppType.bullish, min 100 (|x| * 5)) : OppType × ℝ)
        else if x < -5 then (OppType.bearish, min 100 (|x| * 5))
        else (OppType.neutral, 20)).2 := by
    intro x
    split_ifs <;> dsimp only <;>
      first
        | exact le_min (by norm_num) (by positivity)
        | norm_num
  constructor
  · intro habs
    simp only [classify_and_confidence, hv1, hv2, if_true]
    apply mul_le_mul_of_nonneg_right _ (hliq_nonneg n1 n2)
    set x1 := r1.forward_factor_percent
    set x2 := r2.forward_factor_percent
    split_ifs <;> dsimp only <;> simp only [not_lt] at * <;>
      first
        | exact le_rfl
        | exact min_le_min le_rfl (by linarith)
        | (refine le_min (by norm_num) ?_
           rcases abs_cases x2 with ⟨e, e2⟩ | ⟨e, e2⟩ <;> linarith)
        | (exfalso
           rcases abs_cases x2 with ⟨e, e2⟩ | ⟨e, e2⟩ <;>
             rcases abs_cases x1 with ⟨f, f2⟩ | ⟨f, f2⟩ <;> linarith)
  · intro hmin
    simp only [classify_and_confidence, hv1, if_true]
    apply mul_le_mul_of_nonneg_left _ (hbase_nonneg r1.forward_factor_percent)
    rw [min_div_div_right (by norm_num : (0:ℝ) ≤ 20),
      min_div_div_right (by norm_num : (0:ℝ) ≤ 20), ← Nat.cast_min, ← Nat.cast_min]
    have hc : ((min n1 n2 : ℕ) : ℝ) ≤ ((min m1 m2 : ℕ) : ℝ) := by exact_mod_cast hmin
    linarith

/-- Closed witness for `confidence_monotone`, applied to two explicit valid
results with forward-factor percentages 0 and 40 and counts 20/20 vs 40/40. -/
theorem confidence_monotone_witness :
    ((classify_and_confidence (some (ForwardFactorResult.mk 0 0 30 60 (1/4) (1/4)
        true none)) 20 20).2 ≤
      (classify_and_confidence (some (ForwardFactorResult.mk 0 40 30 60 (1/4) (1/4)
        true none)) 20 20).2) ∧
    ((classify_and_confidence (some (ForwardFactorResult.mk 0 0 30 60 (1/4) (1/4)
        true none)) 20 20).2 ≤
      (classify_and_confidence (some (ForwardFactorResult.mk 0 0 30 60 (1/4) (1/4)
        true none)) 40 40).2) :=
  ⟨(confidence_monotone (ForwardFactorResult.mk 0 0 30 60 (1/4) (1/4) true none)
      (ForwardFactorResult.mk 0 40 30 60 (1/4) (1/4) true none) 20 20 20 20
      rfl rfl).1 (by norm_num),
    (confidence_monotone (ForwardFactorResult.mk 0 0 30 60 (1/4) (1/4) true none)
      (ForwardFactorResult.mk 0 0 30 60 (1/4) (1/4) true none) 20 20 40 40
      rfl rfl).2 (by norm_num)⟩


/-! ## Theorems: liquidity filter -/

/-- A contract quoted with `bid = ask = 2.50` and ample volume and open
interest, used against the strict filter. -/
def equalQuoteContract : OptionData :=
  { strike := 100
    option_type := .call
    bid := 5/2
    ask := 5/2
    last := 5/2
    volume := 150
    open_interest := 500 }

/-- C5 counterexample: with default thresholds, a contract with
`bid = ask = 2.50 > 0` satisfies every condition listed by the claim -
volume, open interest, spread percent `0`, spread dollars `ask - bid = 0`,
bid, ask, mid and volume/OI floors, and valid quotes - yet the strict filter
judges it not liquid, because the source computes the absolute spread as
`ask - bid if ask > bid else inf`. -/
theorem strict_filter_equal_quote_counterexample :
    defaultThresholds.min_volume ≤ equalQuoteContract.volume ∧
    defaultThresholds.min_open_interest ≤ equalQuoteContract.open_interest ∧
    0 < equalQuoteContract.bid ∧
    equalQuoteContract.bid = equalQuoteContract.ask ∧
    (equalQuoteContract.ask - equalQuoteContract.bid) /
        ((equalQuoteContract.bid + equalQuoteContract.ask) / 2) * 100 ≤
      defaultThresholds.max_bid_ask_spread_pct ∧
    equalQuoteContract.ask - equalQuoteContract.bid ≤
      defaultThresholds.max_bid_ask_spread_abs ∧
    defaultThresholds.min_bid ≤ equalQuoteContract.bid ∧
    defaultThresholds.min_ask ≤ equalQuoteContract.ask ∧
    defaultThresholds.min_mid_price ≤ calculate_mid_price equalQuoteContract ∧
    defaultThresholds.min_volume_oi_frac ≤ calculate_volume_oi_frac equalQuoteContract ∧
    (evaluate_option_liquidity defaultThresholds equalQuoteContract).is_liquid = false := by
  refine ⟨by norm_num [defaultThresholds, equalQuoteContract],
    by norm_num [defaultThresholds, equalQuoteContract],
    by norm_num [equalQuoteContract],
    by norm_num [equalQuoteContract],
    by norm_num [defaultThresholds, equalQuoteContract],
    by norm_num [defaultThresholds, equalQuoteContract],
    by norm_num [defaultThresholds, equalQuoteContract],
    by norm_num [defaultThresholds, equalQuoteContract],
    by norm_num [defaultThresholds, equalQuoteContract, calculate_mid_price],
    by norm_num [defaultThresholds, equalQuoteContract, calculate_volume_oi_frac],
    ?_⟩
  have h : ¬ equalQuoteContract.bid < equalQuoteContract.ask := by
    norm_num [equalQuoteContract]
  have hbid' : ¬ (equalQuoteContract.bid ≤ 0 ∨ equalQuoteContract.ask ≤ 0) := by
    push_neg
    constructor <;> norm_num [equalQuoteContract]
  have hmid : ¬ ((equalQuoteContract.bid + equalQuoteContract.ask) / 2 ≤ 0) := by
    norm_num [equalQuoteContract]
  simp only [evaluate_option_liquidity, calculate_bid_ask_spread_pct,
    hbid', hmid, h, if_true, if_false, ite_true, ite_false, spreadAbs]
  simp

/-- C5 amended: the strict filter marks a contract liquid iff volume,
open interest, spread percent, bid, ask, mid and volume/OI floors all hold,
the quotes are valid (`bid > 0` and `ask > 0`), and - instead of the claimed
`spread$ = ask - bid ≤ max_bid_ask_spread_abs` - the quote is strictly
upward (`bid < ask`) with `ask - bid ≤ max_bid_ask_spread_abs`, since the
source treats a non-positive raw spread as infinite and so fails any
contract with `ask ≤ bid`, including `bid = ask > 0`. -/
theorem evaluate_option_liquidity_iff (t : LiquidityThresholds) (o : OptionData) :
    (evaluate_option_liquidity t o).is_liquid = true ↔
      (t.min_volume ≤ o.volume ∧ t.min_open_interest ≤ o.open_interest ∧
        0 < o.bid ∧ 0 < o.ask ∧
        (o.ask - o.bid) / ((o.bid + o.ask) / 2) * 100 ≤ t.max_bid_ask_spread_pct ∧
        o.bid < o.ask ∧ o.ask - o.bid ≤ t.max_bid_ask_spread_abs ∧
        t.min_bid ≤ o.bid ∧ t.min_ask ≤ o.ask ∧
        t.min_mid_price ≤ (o.bid + o.ask) / 2 ∧
        t.min_volume_oi_frac ≤ calculate_volume_oi_frac o) := by
  by_cases hq : o.bid ≤ 0 ∨ o.ask ≤ 0
  · have hfalse : (evaluate_option_liquidity t o).is_liquid = false := by
      simp only [evaluate_option_liquidity, calculate_bid_ask_spread_pct, hq,
        if_true, ite_true]
      simp
    rw [hfalse]
    simp only [Bool.false_eq_true, false_iff]
    rintro ⟨-, -, hb, ha, -⟩
    rcases hq with h | h
    · linarith
    · linarith
  · push_neg at hq
    obtain ⟨hb, ha⟩ := hq
    have hbid' : ¬ (o.bid ≤ 0 ∨ o.ask ≤ 0) := by push_neg; exact ⟨hb, ha⟩
    have hmid : ¬ ((o.bid + o.ask) / 2 ≤ 0) := by push_neg; positivity
    by_cases hba : o.bid < o.ask
    · simp only [evaluate_option_liquidity, calculate_bid_ask_spread_pct,
        hbid', hmid, hba, if_true, if_false, ite_true, ite_false, spreadAbs]
      simp only [Bool.not_eq_true', Bool.or_eq_false_iff, decide_eq_false_iff_not,
        not_lt, calculate_mid_price, if_neg hbid']
      tauto
    · have hfalse : (evaluate_option_liquidity t o).is_liquid = false := by
        simp only [evaluate_option_liquidity, calculate_bid_ask_spread_pct,
          hbid', hmid, hba, if_true, if_false, ite_true, ite_false, spreadAbs]
        simp
      rw [hfalse]
      simp only [Bool.false_eq_true, false_iff]
      rintro ⟨-, -, -, -, -, hlt, -⟩
      exact absurd hlt hba

/-- A one-sided quote: no bid, ask 2.50, with volume and open interest far
above the relaxed thresholds. -/
def oneSidedContract : OptionData :=
  { strike := 100
    option_type := .call
    bid := 0
    ask := 5/2
    last := 12/5
    volume := 150
    open_interest := 500 }

/-- C6 counterexample: a contract with a usable ask but no bid, and volume
and open interest far above the relaxed thresholds, is judged not liquid by
the delta-focused filter: the spread percent of a one-sided quote is treated
as infinite (failing the relaxed spread cap) and the computed mid price is 0
(failing the half-cent floor), so no contract with exactly one positive
quoted side can ever pass. -/
theorem delta_filter_one_sided_counterexample :
    0 < oneSidedContract.ask ∧ oneSidedContract.bid = 0 ∧
    max 1 (Int.fdiv defaultThresholds.min_volume 20) ≤ oneSidedContract.volume ∧
    max 1 (Int.fdiv defaultThresholds.min_open_interest 20) ≤
      oneSidedContract.open_interest ∧
    calculate_mid_price oneSidedContract = 0 ∧
    (evaluate_delta_option_liquidity defaultThresholds oneSidedContract 0).is_liquid
      = false := by
  refine ⟨by norm_num [oneSidedContract], by norm_num [oneSidedContract],
    by decide, by decide,
    by norm_num [calculate_mid_price, oneSidedContract], ?_⟩
  have hq : oneSidedContract.bid ≤ 0 ∨ oneSidedContract.ask ≤ 0 := by
    left
    norm_num [oneSidedContract]
  simp only [evaluate_delta_option_liquidity, calculate_bid_ask_spread_pct, hq,
    if_true, ite_true]
  simp

/-- C6 amended: under the delta-focused filter the price-side requirements
are that both bid and ask are positive and the computed mid `(bid+ask)/2` is
at least the half-cent floor; a contract with exactly one positive quoted
side is never liquid (its spread percent is infinite and its computed mid is
zero).  Full characterization: liquid iff volume and open interest meet the
relaxed (÷20, floored at 1) thresholds, both quote sides are positive, the
spread percent is within the relaxed (×5, capped at 75) limit, and the mid
is at least 0.005. -/
theorem evaluate_delta_option_liquidity_iff (t : LiquidityThresholds) (o : OptionData)
    (d : ℚ) :
    ((o.bid ≤ 0 ∨ o.ask ≤ 0) →
      (evaluate_delta_option_liquidity t o d).is_liquid = false) ∧
    ((evaluate_delta_option_liquidity t o d).is_liquid = true ↔
      (max 1 (Int.fdiv t.min_volume 20) ≤ o.volume ∧
       max 1 (Int.fdiv t.min_open_interest 20) ≤ o.open_interest ∧
       0 < o.bid ∧ 0 < o.ask ∧
       (o.ask - o.bid) / ((o.bid + o.ask) / 2) * 100 ≤
         min 75 (t.max_bid_ask_spread_pct * 5) ∧
       1/200 ≤ (o.bid + o.ask) / 2)) := by
  constructor
  · intro hq
    simp only [evaluate_delta_option_liquidity, calculate_bid_ask_spread_pct, hq,
      if_true, ite_true]
    simp
  · by_cases hq : o.bid ≤ 0 ∨ o.ask ≤ 0
    · have hfalse : (evaluate_delta_option_liquidity t o d).is_liquid = false := by
        simp only [evaluate_delta_option_liquidity, calculate_bid_ask_spread_pct, hq,
          if_true, ite_true]
        simp
      rw [hfalse]
      simp only [Bool.false_eq_true, false_iff]
      rintro ⟨-, -, hb, ha, -⟩
      rcases hq with h | h
      · linarith
      · linarith
    · push_neg at hq
      obtain ⟨hb, ha⟩ := hq
      have hbid' : ¬ (o.bid ≤ 0 ∨ o.ask ≤ 0) := by push_neg; exact ⟨hb, ha⟩
      have hmid : ¬ ((o.bid + o.ask) / 2 ≤ 0) := by push_neg; positivity
      simp only [evaluate_delta_option_liquidity, calculate_bid_ask_spread_pct,
        hbid', hmid, if_true, if_false, ite_true, ite_false]
      simp only [Bool.not_eq_true', Bool.or_eq_false_iff, decide_eq_false_iff_not,
        not_lt, not_and, calculate_mid_price, if_neg hbid']
      constructor
      · intro h
        exact ⟨h.1.1.1.1.1, h.1.1.1.1.2, hb, ha, h.1.1.2, h.2⟩
      · intro h
        exact ⟨⟨⟨⟨⟨h.1, h.2.1⟩, trivial⟩, h.2.2.2.2.1⟩,
          fun hc => absurd hc hb.not_le⟩, h.2.2.2.2.2⟩

/-- Closed witness for `evaluate_delta_option_liquidity_iff`: the one-sided
contract discharges the one-sided hypothesis, giving a non-liquid verdict. -/
theorem evaluate_delta_option_liquidity_iff_witness :
    (evaluate_delta_option_liquidity defaultThresholds oneSidedContract 0).is_liquid
      = false :=
  (evaluate_delta_option_liquidity_iff defaultThresholds oneSidedContract 0).1
    (Or.inl (by norm_num [oneSidedContract]))

/-! ## Theorems: pair selection -/

/-- Invariant of the `best_pair`/`best_score` fold: starting from a current
best `b`, the fold returns either `b` itself (when nothing beats it strictly)
or the first strictly-better-than-everything-before-it candidate. -/
theorem selectBest_go (s : TimeframeSpec) (l : List (ℤ × ℤ)) :
    ∀ b : ℤ × ℤ,
      ∃ r, List.foldl
          (fun best p =>
            match best with
            | none => some p
            | some b => if pairScore s p < pairScore s b then some p else some b)
          (some b) l = some r ∧
        ((r = b ∧ ∀ p ∈ l, pairScore s b ≤ pairScore s p) ∨
          (∃ l1 l2, l = l1 ++ r :: l2 ∧ pairScore s r < pairScore s b ∧
            (∀ p ∈ l1, pairScore s r < pairScore s p) ∧
            (∀ p ∈ l2, pairScore s r ≤ pairScore s p))) := by
  induction l with
  | nil =>
    intro b
    exact ⟨b, rfl, Or.inl ⟨rfl, by simp⟩⟩
  | cons p rest ih =>
    intro b
    by_cases hlt : pairScore s p < pairScore s b
    · obtain ⟨r, hr, hcase⟩ := ih p
      refine ⟨r, ?_, ?_⟩
      · simpa [List.foldl_cons, hlt] using hr
      · right
        rcases hcase with ⟨rfl, hmin⟩ | ⟨l1, l2, rfl, hscore, hl1, hl2⟩
        · exact ⟨[], rest, rfl, hlt, by simp, hmin⟩
        · refine ⟨p :: l1, l2, rfl, lt_trans hscore hlt, ?_, hl2⟩
          intro q hq
          rcases List.mem_cons.mp hq with rfl | hq
          · exact hscore
          · exact hl1 q hq
    · obtain ⟨r, hr, hcase⟩ := ih b
      refine ⟨r, ?_, ?_⟩
      · simpa [List.foldl_cons, hlt] using hr
      · rcases hcase with ⟨rfl, hmin⟩ | ⟨l1, l2, rfl, hscore, hl1, hl2⟩
        · left
          refine ⟨rfl, ?_⟩
          intro q hq
          rcases List.mem_cons.mp hq with rfl | hq
          · exact not_lt.mp hlt
          · exact hmin q hq
        · right
          exact ⟨p :: l1, l2, rfl, hscore,
            by
              intro q hq
              rcases List.mem_cons.mp hq with rfl | hq
              · exact lt_of_lt_of_le hscore (not_lt.mp hlt)
              · exact hl1 q hq,
            hl2⟩

/-- The selection returns `none` exactly on the empty candidate list. -/
theorem selectBest_eq_none (s : TimeframeSpec) (l : List (ℤ × ℤ)) :
    selectBest s l = none ↔ l = [] := by
  cases l with
  | nil => simp [selectBest]
  | cons p rest =>
    obtain ⟨r, hr, -⟩ := selectBest_go s rest p
    simp only [selectBest, List.foldl_cons]
    rw [hr]
    simp

/-- A returned best pair splits the candidate list into a strictly-worse
prefix and a no-better suffix: it is the first candidate attaining the
minimal score. -/
theorem selectBest_eq_some (s : TimeframeSpec) (l : List (ℤ × ℤ)) (r : ℤ × ℤ)
    (h : selectBest s l = some r) :
    ∃ l1 l2, l = l1 ++ r :: l2 ∧ (∀ p ∈ l1, pairScore s r < pairScore s p) ∧
      (∀ p ∈ l2, pairScore s r ≤ pairScore s p) := by
  cases l with
  | nil => simp [selectBest] at h
  | cons p rest =>
    obtain ⟨r', hr', hcase⟩ := selectBest_go s rest p
    have hr : r' = r := by
      have : selectBest s (p :: rest) = some r' := by
        simp only [selectBest, List.foldl_cons]
        exact hr'
      rw [this] at h
      exact Option.some.inj h
    subst hr
    rcases hcase with ⟨rfl, hmin⟩ | ⟨l1, l2, rfl, hscore, hl1, hl2⟩
    · exact ⟨[], rest, rfl, by simp, hmin⟩
    · refine ⟨p :: l1, l2, rfl, ?_, hl2⟩
      intro q hq
      rcases List.mem_cons.mp hq with rfl | hq
      · exact hscore
      · exact hl1 q hq

/-- Membership in the professional scanner's candidate list: exactly the
window-satisfying pairs whose second chain sits strictly after the first in
the list order. -/
theorem mem_candidatePairsPro (chains : List ℤ) (s : TimeframeSpec) (p : ℤ × ℤ) :
    p ∈ candidatePairsPro chains s ↔
      ∃ i j : ℕ, i < j ∧ chains.get? i = some p.1 ∧ chains.get? j = some p.2 ∧
        inNearWindow s p.1 ∧ inNextWindow s p.2 := by
  induction chains with
  | nil => simp [candidatePairsPro]
  | cons d rest ih =>
    simp only [candidatePairsPro, List.mem_append]
    constructor
    · rintro (h | h)
      · by_cases hnear : inNearWindow s d
        · rw [if_pos hnear] at h
          simp only [List.mem_map, List.mem_filter] at h
          obtain ⟨d2, ⟨hd2mem, hd2win⟩, rfl⟩ := h
          obtain ⟨j, hj⟩ := List.get?_of_mem hd2mem
          exact ⟨0, j + 1, Nat.succ_pos j, rfl, by simpa using hj, hnear,
            of_decide_eq_true hd2win⟩
        · rw [if_neg hnear] at h
          simp at h
      · obtain ⟨i, j, hij, h1, h2, hw1, hw2⟩ := ih.mp h
        exact ⟨i + 1, j + 1, by omega, by simpa using h1, by simpa using h2, hw1, hw2⟩
    · rintro ⟨i, j, hij, h1, h2, hw1, hw2⟩
      cases i with
      | zero =>
        left
        have hd : d = p.1 := by simpa using h1
        rw [if_pos (hd ▸ hw1)]
        cases j with
        | zero => omega
        | succ j' =>
          have h2' : rest.get? j' = some p.2 := by simpa using h2
          simp only [List.mem_map, List.mem_filter]
          refine ⟨p.2, ⟨List.get?_mem h2', decide_eq_true hw2⟩, ?_⟩
          rw [hd]
      | succ i' =>
        right
        cases j with
        | zero => omega
        | succ j' =>
          exact ih.mpr ⟨i', j', by omega, by simpa using h1, by simpa using h2,
            hw1, hw2⟩

/-- Membership in the `run_strategy` candidate list: all window-satisfying
pairs, with no positional constraint between the two chains. -/
theorem mem_candidatePairsScan (chains : List ℤ) (s : TimeframeSpec) (p : ℤ × ℤ) :
    p ∈ candidatePairsScan chains s ↔
      p.1 ∈ chains ∧ p.2 ∈ chains ∧ inNearWindow s p.1 ∧ inNextWindow s p.2 := by
  simp only [candidatePairsScan, List.mem_flatMap]
  constructor
  · rintro ⟨d1, hd1, hp⟩
    by_cases hnear : inNearWindow s d1
    · rw [if_pos hnear] at hp
      simp only [List.mem_map, List.mem_filter] at hp
      obtain ⟨d2, ⟨hd2, hw2⟩, rfl⟩ := hp
      exact ⟨hd1, hd2, hnear, of_decide_eq_true hw2⟩
    · rw [if_neg hnear] at hp
      simp at hp
  · rintro ⟨h1, h2, hw1, hw2⟩
    refine ⟨p.1, h1, ?_⟩
    rw [if_pos hw1]
    simp only [List.mem_map, List.mem_filter]
    exact ⟨p.2, ⟨h2, decide_eq_true hw2⟩, rfl⟩

/-- C7 amended: for a DTE-sorted chain list, the professional scanner's pair
selection considers exactly the window pairs with chain2 strictly after
chain1, returns the first pair attaining the minimal score
`|dte1 - near_target| + |dte2 - next_target|`, and yields no result exactly
when no such pair exists; the `run_strategy` selection in
`src/forward_factor_scanner.py` satisfies the same window and minimality
properties but over all pairs, with no strictly-after constraint. -/
theorem pair_selection_behavior (chains : List ℤ) (s : TimeframeSpec)
    (_hsorted : List.Sorted (· ≤ ·) chains) :
    (∀ r, select_pair_pro chains s = some r →
      inNearWindow s r.1 ∧ inNextWindow s r.2 ∧
      (∃ i j : ℕ, i < j ∧ chains.get? i = some r.1 ∧ chains.get? j = some r.2) ∧
      (∀ p ∈ candidatePairsPro chains s, pairScore s r ≤ pairScore s p) ∧
      (∃ l1 l2, candidatePairsPro chains s = l1 ++ r :: l2 ∧
        ∀ p ∈ l1, pairScore s r < pairScore s p)) ∧
    (select_pair_pro chains s = none ↔
      ¬ ∃ i j : ℕ, i < j ∧ ∃ d1 d2, chains.get? i = some d1 ∧
        chains.get? j = some d2 ∧ inNearWindow s d1 ∧ inNextWindow s d2) ∧
    (∀ r, select_pair_scan chains s = some r →
      r.1 ∈ chains ∧ r.2 ∈ chains ∧ inNearWindow s r.1 ∧ inNextWindow s r.2 ∧
      ∀ p ∈ candidatePairsScan chains s, pairScore s r ≤ pairScore s p) ∧
    (select_pair_scan chains s = none ↔
      ¬ ∃ d1 ∈ chains, ∃ d2 ∈ chains, inNearWindow s d1 ∧ inNextWindow s d2) := by
  refine ⟨?_, ?_, ?_, ?_⟩
  · intro r hr
    obtain ⟨l1, l2, hdecomp, hl1, hl2⟩ := selectBest_eq_some s _ r hr
    have hmem : r ∈ candidatePairsPro chains s := by
      rw [hdecomp]
      simp
    obtain ⟨i, j, hij, h1, h2, hw1, hw2⟩ := (mem_candidatePairsPro chains s r).mp hmem
    refine ⟨hw1, hw2, ⟨i, j, hij, h1, h2⟩, ?_, ⟨l1, l2, hdecomp, hl1⟩⟩
    intro p hp
    rw [hdecomp] at hp
    rcases List.mem_append.mp hp with hp | hp
    · exact le_of_lt (hl1 p hp)
    · rcases List.mem_cons.mp hp with rfl | hp
      · exact le_rfl
      · exact hl2 p hp
  · rw [show (select_pair_pro chains s = none) =
      (selectBest s (candidatePairsPro chains s) = none) from rfl,
      selectBest_eq_none]
    constructor
    · intro hempty ⟨i, j, hij, d1, d2, h1, h2, hw1, hw2⟩
      have : (d1, d2) ∈ candidatePairsPro chains s :=
        (mem_candidatePairsPro chains s (d1, d2)).mpr ⟨i, j, hij, h1, h2, hw1, hw2⟩
      rw [hempty] at this
      simp at this
    · intro hno
      by_contra hne
      obtain ⟨p, hp⟩ := List.exists_mem_of_ne_nil _ hne
      obtain ⟨i, j, hij, h1, h2, hw1, hw2⟩ := (mem_candidatePairsPro chains s p).mp hp
      exact hno ⟨i, j, hij, p.1, p.2, h1, h2, hw1, hw2⟩
  · intro r hr
    obtain ⟨l1, l2, hdecomp, hl1, hl2⟩ := selectBest_eq_some s _ r hr
    have hmem : r ∈ candidatePairsScan chains s := by
      rw [hdecomp]
      simp
    obtain ⟨h1, h2, hw1, hw2⟩ := (mem_candidatePairsScan chains s r).mp hmem
    refine ⟨h1, h2, hw1, hw2, ?_⟩
    intro p hp
    rw [hdecomp] at hp
    rcases List.mem_append.mp hp with hp | hp
    · exact le_of_lt (hl1 p hp)
    · rcases List.mem_cons.mp hp with rfl | hp
      · exact le_rfl
      · exact hl2 p hp
  · rw [show (select_pair_scan chains s = none) =
      (selectBest s (candidatePairsScan chains s) = none) from rfl,
      selectBest_eq_none]
    constructor
    · intro hempty ⟨d1, hd1, d2, hd2, hw1, hw2⟩
      have : (d1, d2) ∈ candidatePairsScan chains s :=
        (mem_candidatePairsScan chains s (d1, d2)).mpr ⟨hd1, hd2, hw1, hw2⟩
      rw [hempty] at this
      simp at this
    · intro hno
      by_contra hne
      obtain ⟨p, hp⟩ := List.exists_mem_of_ne_nil _ hne
      obtain ⟨h1, h2, hw1, hw2⟩ := (mem_candidatePairsScan chains s p).mp hp
      exact hno ⟨p.1, h1, p.2, h2, hw1, hw2⟩

/-- C7 counterexample: on the DTE-sorted chain list `[44, 65]` with the 60/90
timeframe, the `run_strategy` selection of `src/forward_factor_scanner.py`
pairs the 65-DTE chain with itself (score 30) in preference to the ordered
pair `(44, 65)` (score 41): the selected chain2 is not strictly after chain1.
The professional scanner on the same input selects `(44, 65)`. -/
theorem pair_selection_counterexample :
    List.Sorted (· ≤ ·) [(44:ℤ), 65] ∧
    select_pair_scan [44, 65] spec6090 = some (65, 65) ∧
    select_pair_pro [44, 65] spec6090 = some (44, 65) := by
  refine ⟨?_, ?_, ?_⟩
  · simp [List.sorted_cons]
  · rfl
  · rfl

/-- Closed witness for `pair_selection_behavior` at the chain list `[44, 65]`
with the 60/90 timeframe. -/
theorem pair_selection_behavior_witness :
    inNearWindow spec6090 44 ∧ inNextWindow spec6090 65 ∧
      (∀ p ∈ candidatePairsScan [44, 65] spec6090,
        pairScore spec6090 ((65:ℤ), (65:ℤ)) ≤ pairScore spec6090 p) := by
  have h := pair_selection_behavior [44, 65] spec6090 (by simp [List.sorted_cons])
  exact ⟨(h.1 (44, 65) rfl).1, (h.1 (44, 65) rfl).2.1, (h.2.2.1 (65, 65) rfl).2.2.2.2⟩

/-! ## Theorems: implied volatility solver boundary -/

/-- C8: whatever the external solver does, `calculate_iv` returns either a
value in `[0.01, 3.0]` or `none`; it returns `none` whenever any of price,
spot, strike or time-to-expiry is non-positive, and whenever the price is
strictly below the intrinsic value; a solver exception becomes `none`
rather than escaping. -/
theorem calculate_iv_boundary
    (solver : ℚ → ℚ → ℚ → ℚ → ℚ → Char → Except Unit ℚ)
    (option_price underlying_price strike_price time_to_expiry risk_free_rate : ℚ)
    (option_type : Char) :
    (∀ v, calculate_iv solver option_price underlying_price strike_price
        time_to_expiry risk_free_rate option_type = some v →
      1/100 ≤ v ∧ v ≤ 3) ∧
    ((option_price ≤ 0 ∨ underlying_price ≤ 0 ∨ strike_price ≤ 0 ∨
        time_to_expiry ≤ 0) →
      calculate_iv solver option_price underlying_price strike_price
        time_to_expiry risk_free_rate option_type = none) ∧
    (option_price < (if option_type.toLower = 'c'
        then max 0 (underlying_price - strike_price)
        else max 0 (strike_price - underlying_price)) →
      calculate_iv solver option_price underlying_price strike_price
        time_to_expiry risk_free_rate option_type = none) := by
  refine ⟨?_, ?_, ?_⟩
  · intro v hv
    unfold calculate_iv at hv
    rcases hsol : solver option_price underlying_price strike_price time_to_expiry
        risk_free_rate option_type.toLower with e | iv <;>
      rw [hsol] at hv <;> split_ifs at hv <;> simp_all <;>
      obtain ⟨-, ⟨hb1, hb2⟩, rfl⟩ := hv <;> exact ⟨hb1, hb2⟩
  · intro h
    unfold calculate_iv
    rw [if_pos h]
  · intro h
    unfold calculate_iv
    by_cases h1 : option_price ≤ 0 ∨ underlying_price ≤ 0 ∨ strike_price ≤ 0 ∨
        time_to_expiry ≤ 0
    · rw [if_pos h1]
    · rw [if_neg h1]
      dsimp only
      rw [if_pos h]

/-- Closed witness for `calculate_iv_boundary`: a zero price and a
below-intrinsic price both give `none`, and a solver answer of 2 (inside the
band, with valid inputs) is returned and lies in `[0.01, 3]`. -/
theorem calculate_iv_boundary_witness :
    calculate_iv (fun _ _ _ _ _ _ => Except.ok 1) 0 100 100 (1/12) (1/20) 'c'
      = none ∧
    calculate_iv (fun _ _ _ _ _ _ => Except.ok 1) 1 90 100 (1/12) (1/20) 'p'
      = none ∧
    ((1:ℚ)/100 ≤ 2 ∧ (2:ℚ) ≤ 3) := by
  refine ⟨?_, ?_, ?_⟩
  · exact (calculate_iv_boundary (fun _ _ _ _ _ _ => Except.ok 1)
      0 100 100 (1/12) (1/20) 'c').2.1 (Or.inl le_rfl)
  · refine (calculate_iv_boundary (fun _ _ _ _ _ _ => Except.ok 1)
      1 90 100 (1/12) (1/20) 'p').2.2 ?_
    rw [if_neg (by decide : ¬ Char.toLower 'p' = 'c')]
    norm_num
  · refine (calculate_iv_boundary (fun _ _ _ _ _ _ => Except.ok 2)
      5 100 100 (1/12) (1/20) 'c').1 2 ?_
    have h1 : ¬((5:ℚ) ≤ 0 ∨ (100:ℚ) ≤ 0 ∨ (100:ℚ) ≤ 0 ∨ (1/12:ℚ) ≤ 0) := by
      norm_num
    unfold calculate_iv
    rw [if_neg h1]
    dsimp only
    rw [if_pos (by decide : Char.toLower 'c' = 'c'), if_neg (by norm_num :
      ¬ (5:ℚ) < max 0 (100 - 100)), if_pos (by norm_num :
      (1:ℚ)/100 ≤ 2 ∧ (2:ℚ) ≤ 3)]
